import Mathlib

/-
Verification of the semantic knowledge-graph QA core
(graph_builder.py and query_router.py), shallowly embedded in Lean.

Strings are modelled over their character lists.  Python regular
expression behaviour is embedded operationally, specialised to the exact
patterns of the source: leftmost scanning, greedy word-sequence groups
with backtracking, lazy dot-groups that may not cross a newline, and
case-insensitive keyword matching.  Python sets are modelled as lists
deduplicated in first-occurrence order (the iteration order of a Python
set is unspecified; no claim below depends on it).  ASCII inputs are
assumed throughout, matching the ASCII-only surface patterns of the
source.
-/

namespace KGQA

set_option maxRecDepth 100000

/-- Python regex word character, ASCII: [a-zA-Z0-9_]. -/
def isWordChar (c : Char) : Bool := c.isAlpha || c.isDigit || c = '_'

/-- Python regex whitespace, ASCII: space, tab, newline, CR, VT, FF. -/
def isSpaceChar (c : Char) : Bool :=
  c = ' ' || c = '\t' || c = '\n' || c = '\r' || c = Char.ofNat 11 || c = Char.ofNat 12

/-- The double-quote character. -/
def quoteChar : Char := Char.ofNat 34

/-- The apostrophe character, used inside several answer strings. -/
def apos : String := String.singleton (Char.ofNat 39)

/-- Python str.lower (ASCII range). -/
def pyLower (s : String) : String := String.mk (s.toList.map Char.toLower)

/-- Python str.strip with no argument (strips whitespace at both ends). -/
def pyStrip (s : String) : String :=
  String.mk (((s.toList.dropWhile isSpaceChar).reverse.dropWhile isSpaceChar).reverse)

/-- Substring test on char lists: does hay contain needle (Python `needle in hay`)? -/
def listContainsSub (hay needle : List Char) : Bool :=
  if needle.isPrefixOf hay then true
  else match hay with
    | [] => false
    | _ :: t => listContainsSub t needle

/-- Python `needle in hay` for strings. -/
def containsSub (hay needle : String) : Bool := listContainsSub hay.toList needle.toList

/-- Deduplication keeping first occurrences, modelling accumulation into a Python set. -/
def dedupFirstAux (seen : List String) : List String → List String
  | [] => []
  | x :: t => if seen.contains x then dedupFirstAux seen t else x :: dedupFirstAux (x :: seen) t

/-- Deduplication keeping first occurrences. -/
def dedupFirst (l : List String) : List String := dedupFirstAux [] l

/-
Entity extraction (graph_builder.extract_entities).

The capitalized-phrase pattern is r"\b[A-Z][a-z]+(?:\s+[A-Z][a-z]+)*\b",
scanned by re.findall: at a match start the previous character must not
be a word character; the greedy word-group chain is followed by a word
boundary, and when the character after the greedy match is a word
character the regex backtracks by dropping the final (?:\s+[A-Z][a-z]+)
group (after which the boundary sits before whitespace and succeeds), or
fails at this start position when no group can be dropped.
-/

/-- Greedily consume (?:\s+[A-Z][a-z]+)* groups; returns the consumed
groups (whitespace and word merged) and the remainder. -/
def capGroups : Nat → List Char → (List (List Char) × List Char)
  | 0, cs => ([], cs)
  | f + 1, cs =>
    let sp := cs.takeWhile isSpaceChar
    if sp.isEmpty then ([], cs)
    else
      match cs.dropWhile isSpaceChar with
      | [] => ([], cs)
      | c :: t =>
        if c.isUpper then
          let low := t.takeWhile (fun d => d.isLower)
          if low.isEmpty then ([], cs)
          else
            let (gs, rest) := capGroups f (t.dropWhile (fun d => d.isLower))
            ((sp ++ c :: low) :: gs, rest)
        else ([], cs)

/-- Attempt the capitalized-phrase pattern at the current position.
prevIsWord says whether the character before the position is a word
character (the leading word boundary).  On success returns the matched
text and the remainder after the match. -/
def tryCapAt (prevIsWord : Bool) (cs : List Char) : Option (List Char × List Char) :=
  if prevIsWord then none
  else match cs with
    | [] => none
    | c :: t =>
      if c.isUpper then
        let low := t.takeWhile (fun d => d.isLower)
        if low.isEmpty then none
        else
          let rest0 := t.dropWhile (fun d => d.isLower)
          let (gs, rest) := capGroups (rest0.length + 1) rest0
          let nextIsWord := match rest with
            | [] => false
            | d :: _ => isWordChar d
          if nextIsWord then
            match gs with
            | [] => none
            | _ =>
              let kept := gs.dropLast
              let dropped := gs.getLast?.getD []
              some (c :: low ++ kept.flatten, dropped ++ rest)
          else some (c :: low ++ gs.flatten, rest)
      else none

/-- Non-overlapping scan of the capitalized-phrase pattern (re.findall). -/
def capScan : Nat → Bool → List Char → List String
  | 0, _, _ => []
  | _ + 1, _, [] => []
  | f + 1, prevIsWord, c :: t =>
    match tryCapAt prevIsWord (c :: t) with
    | some (m, rest) => String.mk m :: capScan f true rest
    | none => capScan f (isWordChar c) t

/-- re.findall for the quoted-phrase pattern, capturing contents between
double quotes, non-overlapping. -/
def quotedScan : Nat → List Char → List String
  | 0, _ => []
  | _ + 1, [] => []
  | f + 1, c :: t =>
    if c = quoteChar then
      let content := t.takeWhile (fun d => d ≠ quoteChar)
      match t.dropWhile (fun d => d ≠ quoteChar) with
      | [] => []
      | _ :: rest => String.mk content :: quotedScan f rest
    else quotedScan f t

/-- Stopword set of extract_entities. -/
def stop_words : List String := ["The", "This", "That", "These", "Those", "A", "An"]

/-- graph_builder.KnowledgeGraphBuilder.extract_entities.  The Python
set of entities is modelled as a list deduplicated in first-occurrence
order (capitalized matches first, then quoted phrases). -/
def extract_entities (text : String) : List String :=
  let caps := capScan (text.length + 1) false text.toList
  let quoted := quotedScan (text.length + 1) text.toList
  (dedupFirst (caps ++ quoted)).filter
    (fun e => !(stop_words.contains e) && decide (2 < e.length))

/-
Relation extraction (graph_builder.extract_relations).

Each pattern has the shape
  (\w+(?:\s+\w+)*)\s+K1\s+K2...\s+(\w+(?:\s+\w+)*)
matched with re.IGNORECASE by re.finditer.  The greedy first group is a
maximal run of whitespace-separated words, backtracked whole-word by
whole-word (shrinking \w+ or \s+ inside the run can never help, because
the following required token is \s+): the longest word prefix of the run
for which the keyword chain and the second group match wins.  The second
group is the following maximal word run.  finditer scans start positions
left to right and continues after each match end.
-/

/-- Greedily parse (?:\s+\w+)* continuations: pairs of (whitespace, word)
and the remainder. -/
def parseRunPairs : Nat → List Char → (List (List Char × List Char) × List Char)
  | 0, cs => ([], cs)
  | f + 1, cs =>
    let sp := cs.takeWhile isSpaceChar
    if sp.isEmpty then ([], cs)
    else
      let r1 := cs.dropWhile isSpaceChar
      let w := r1.takeWhile isWordChar
      if w.isEmpty then ([], cs)
      else
        let (ps, suffix) := parseRunPairs f (r1.dropWhile isWordChar)
        ((sp, w) :: ps, suffix)

/-- Parse the maximal word run \w+(?:\s+\w+)* at the current position:
first word, following (whitespace, word) pairs, and the remainder. -/
def parseRun (cs : List Char) : Option (List Char × List (List Char × List Char) × List Char) :=
  let w := cs.takeWhile isWordChar
  if w.isEmpty then none
  else
    let (ps, suffix) := parseRunPairs (cs.length + 1) (cs.dropWhile isWordChar)
    some (w, ps, suffix)

/-- Case-insensitive literal match of a lowercase keyword at the head of
the text; returns the remainder on success. -/
def ciPrefixDrop : List Char → List Char → Option (List Char)
  | [], cs => some cs
  | _ :: _, [] => none
  | k :: ks, c :: cs => if c.toLower = k then ciPrefixDrop ks cs else none

/-- Match \s+K\s+K...\s+(\w+(?:\s+\w+)*) after the first group: each
element of the keyword chain is a list of alternatives tried in order
(for the is_a pattern the second keyword is a|an).  Returns the captured
second group and the remainder after the whole match. -/
def matchTail : List (List String) → List Char → Option (String × List Char)
  | groups, cs =>
    let sp := cs.takeWhile isSpaceChar
    if sp.isEmpty then none
    else
      let rest := cs.dropWhile isSpaceChar
      match groups with
      | [] =>
        match parseRun rest with
        | none => none
        | some (w, ps, suffix) =>
          some (String.mk (w ++ (ps.map (fun p => p.1 ++ p.2)).flatten), suffix)
      | alts :: gs =>
        alts.findSome? (fun a => (ciPrefixDrop a.toList rest).bind (fun r => matchTail gs r))

/-- All splits of a word run into a first-group prefix (at least one
word) and the corresponding remainder, ordered smallest prefix first. -/
def groupOneSplits : List Char → List (List Char × List Char) → List Char →
    List (List Char × List Char)
  | acc, [], suffix => [(acc, suffix)]
  | acc, (sp, w) :: ps, suffix =>
    (acc, (((sp, w) :: ps).map (fun p => p.1 ++ p.2)).flatten ++ suffix) ::
      groupOneSplits (acc ++ sp ++ w) ps suffix

/-- Attempt a relation pattern at the current position: greedy first
group with whole-word backtracking (largest prefix first), then the
keyword chain and the second group. -/
def tryRelAt (mid : List (List String)) (cs : List Char) : Option (String × String × List Char) :=
  match parseRun cs with
  | none => none
  | some (w, ps, suffix) =>
    ((groupOneSplits w ps suffix).reverse).findSome?
      (fun s => (matchTail mid s.2).map (fun r => (String.mk s.1, r.1, r.2)))

/-- re.finditer for one relation pattern: non-overlapping matches,
scanning start positions left to right. -/
def relScan (mid : List (List String)) : Nat → List Char → List (String × String)
  | 0, _ => []
  | _ + 1, [] => []
  | f + 1, c :: t =>
    match tryRelAt mid (c :: t) with
    | some (g1, g2, rest) => (g1, g2) :: relScan mid f rest
    | none => relScan mid f t

/-- The ordered relation pattern table of extract_relations: keyword
chain (with alternatives) and relation tag. -/
def relation_patterns : List (List (List String) × String) :=
  [([["is"], ["a", "an"]], "is_a"),
   ([["has"]], "has"),
   ([["works"], ["at"]], "works_at"),
   ([["lives"], ["in"]], "lives_in"),
   ([["founded"]], "founded"),
   ([["created"]], "created")]

/-- The acceptance test of extract_relations for one captured side:
any(side.lower() in entity.lower() for entity in entities), i.e. some
entity whose lowercased text contains the lowercased captured side. -/
def entityOverlap (entities : List String) (side : String) : Bool :=
  entities.any (fun e => containsSub (pyLower e) (pyLower side))

/-- The filter applied to a stripped triple (subject, tag, object) by
extract_relations: both sides must overlap the entity set. -/
def relOverlapKeep (entities : List String) (t : String × String × String) : Bool :=
  entityOverlap entities t.1 && entityOverlap entities t.2.2

/-- graph_builder.KnowledgeGraphBuilder.extract_relations. -/
def extract_relations (text : String) (entities : List String) :
    List (String × String × String) :=
  relation_patterns.foldl (fun acc pr =>
    (relScan pr.1 (text.length + 1) text.toList).foldl (fun acc2 m =>
      if relOverlapKeep entities (pyStrip m.1, pr.2, pyStrip m.2)
      then acc2 ++ [(pyStrip m.1, pr.2, pyStrip m.2)]
      else acc2) acc) []

/-- All stripped pattern matches of extract_relations before the
entity-overlap filter, in pattern order then text order. -/
def raw_relation_matches (text : String) : List (String × String × String) :=
  (relation_patterns.map (fun pr =>
    (relScan pr.1 (text.length + 1) text.toList).map
      (fun m => (pyStrip m.1, pr.2, pyStrip m.2)))).flatten

/-
Directed graph model (networkx.DiGraph as used by the source).

Nodes are kept in insertion order with their attribute dictionaries;
edges are keyed by the ordered (source, target) pair and carry the
single relation attribute.  nx.DiGraph is a simple digraph: add_edge on
an existing pair overwrites the attribute in place, and add_edge inserts
missing endpoint nodes (with empty attributes) before the edge.
-/

structure Graph where
  nodes : List (String × List (String × String))
  edges : List ((String × String) × String)
deriving DecidableEq, Repr

def Graph.empty : Graph := ⟨[], []⟩

def Graph.nodeLabels (g : Graph) : List String := g.nodes.map Prod.fst

/-- nx.DiGraph.has_node. -/
def Graph.hasNode (g : Graph) (n : String) : Bool := decide (n ∈ g.nodeLabels)

/-- nx attribute-dictionary update: existing keys keep their position
with the new value, new keys are appended. -/
def updateAttrs (old upd : List (String × String)) : List (String × String) :=
  old.map (fun kv =>
    match upd.find? (fun kv2 => decide (kv2.1 = kv.1)) with
    | some kv2 => (kv.1, kv2.2)
    | none => kv) ++
  upd.filter (fun kv2 => (old.find? (fun kv => decide (kv.1 = kv2.1))).isNone)

/-- nx.DiGraph.add_node with attributes. -/
def Graph.addNode (g : Graph) (n : String) (attrs : List (String × String)) : Graph :=
  if g.hasNode n then
    ⟨g.nodes.map (fun p => if p.1 = n then (p.1, updateAttrs p.2 attrs) else p), g.edges⟩
  else ⟨g.nodes ++ [(n, attrs)], g.edges⟩

/-- nx.DiGraph.has_edge. -/
def Graph.hasEdge (g : Graph) (u v : String) : Bool := decide ((u, v) ∈ g.edges.map Prod.fst)

/-- Insert a node with empty attributes when absent (the implicit node
creation performed by nx add_edge). -/
def Graph.ensureNode (g : Graph) (n : String) : Graph :=
  if g.hasNode n then g else ⟨g.nodes ++ [(n, [])], g.edges⟩

/-- nx.DiGraph.add_edge with relation attribute: inserts missing
endpoints, then overwrites the relation of an existing (u, v) edge in
place or appends a new edge. -/
def Graph.addEdge (g : Graph) (u v rel : String) : Graph :=
  if ((g.ensureNode u).ensureNode v).hasEdge u v then
    ⟨((g.ensureNode u).ensureNode v).nodes,
      ((g.ensureNode u).ensureNode v).edges.map
        (fun e => if e.1 = (u, v) then (e.1, rel) else e)⟩
  else
    ⟨((g.ensureNode u).ensureNode v).nodes,
      ((g.ensureNode u).ensureNode v).edges ++ [((u, v), rel)]⟩

/-- nx.DiGraph.successors, also DiGraph.neighbors (adjacency order =
first-insertion order of the outgoing edges). -/
def Graph.successors (g : Graph) (n : String) : List String :=
  (g.edges.filter (fun e => decide (e.1.1 = n))).map (fun e => e.1.2)

/-- nx.DiGraph.predecessors. -/
def Graph.predecessors (g : Graph) (n : String) : List String :=
  (g.edges.filter (fun e => decide (e.1.2 = n))).map (fun e => e.1.1)

/-- edge_data.get of the relation attribute with a default (the
attribute is always present on edges built by this code). -/
def edgeRel (g : Graph) (s t : String) : String :=
  ((g.edges.find? (fun e => decide (e.1 = (s, t)))).map (fun e => e.2)).getD "connected_to"

/-
Graph assembly (graph_builder.build_graph_from_chunks, build_graph).
-/

/-- graph_builder.KnowledgeGraphBuilder._find_best_entity_match: exact
case-insensitive match first, then first entity containing or contained
in the mention. -/
def find_best_entity_match (entity : String) (entity_set : List String) : Option String :=
  let el := pyLower entity
  match entity_set.find? (fun e => decide (pyLower e = el)) with
  | some e => some e
  | none =>
    entity_set.find? (fun e => containsSub (pyLower e) el || containsSub el (pyLower e))

/-- One chunk of the build loop: add the chunk entities as nodes (guarded
by has_node), then add an edge for each extracted triple whose sides
resolve to entities.  The `if ... != ""` mirrors Python truthiness of
the two match results (an empty string is falsy); resolved entities are
in fact never empty. -/
def processChunk (g : Graph) (chunk : String) : Graph :=
  let entities := extract_entities chunk
  let g1 := entities.foldl
    (fun g e => if g.hasNode e then g else g.addNode e [("type", "entity")]) g
  (extract_relations chunk entities).foldl (fun g t =>
    match find_best_entity_match t.1 entities, find_best_entity_match t.2.2 entities with
    | some s, some o => if s != "" && o != "" then g.addEdge s o t.2.1 else g
    | _, _ => g) g1

/-- graph_builder.KnowledgeGraphBuilder.build_graph_from_chunks. -/
def build_graph_from_chunks (chunks : List String) : Graph :=
  chunks.foldl processChunk Graph.empty

/-- Modelled from the spec: the text segmenter is an external
collaborator (a generic recursive chunker with window size 1000 and
overlap 200, not part of this repository) that splits the combined
corpus into windows of bounded size; a corpus within the bound passes
through unchanged as a single chunk.  Only the within-bound behaviour is
exercised by the claims. -/
def split_text (s : String) : List String :=
  if s.length ≤ 1000 then [s] else s.splitOn "\n\n"

/-- graph_builder.build_graph: empty input gives the empty graph,
otherwise the texts are joined with blank lines, segmented, and
assembled chunk by chunk. -/
def build_graph (texts : List String) : Graph :=
  if texts.isEmpty then Graph.empty
  else build_graph_from_chunks (split_text (String.intercalate "\n\n" texts))

/-
difflib.SequenceMatcher ratio (query_router.find_similar_entities).

find_longest_match scans positions of the first string in ascending
order, keeping a running row of common-suffix lengths against the second
string and replacing the best block only on strictly greater size (so
ties keep the earliest block).  get_matching_blocks recurses on the
regions left and right of the best block; ratio = 2*M/(len(a)+len(b)).
The strings compared here are short, so difflib autojunk (which only
affects second strings of length >= 200) never triggers.  The 0.6
threshold comparison is modelled exactly on rationals.
-/

/-- One dynamic-programming row: lengths of common suffixes of a-prefix
ending at the current character and every b-position; diag carries the
previous row value one position to the left. -/
def lcsRowAux (ai : Char) : List Char → List Nat → Nat → List Nat
  | [], _, _ => []
  | c :: bt, prow, diag =>
    let v := if c = ai then diag + 1 else 0
    match prow with
    | [] => v :: lcsRowAux ai bt [] 0
    | p :: pt => v :: lcsRowAux ai bt pt p

/-- Scan a row for a strictly larger block, keeping the earliest on
ties; best is (start in a, start in b, size). -/
def scanRowBest : List Nat → Nat → Nat → Nat × Nat × Nat → Nat × Nat × Nat
  | [], _, _, best => best
  | v :: t, i, j, best =>
    scanRowBest t i (j + 1) (if v > best.2.2 then (i + 1 - v, j + 1 - v, v) else best)

/-- Row-by-row loop of find_longest_match. -/
def flmAux (b : List Char) : List Char → Nat → List Nat → Nat × Nat × Nat → Nat × Nat × Nat
  | [], _, _, best => best
  | c :: arest, i, prow, best =>
    let row := lcsRowAux c b prow 0
    flmAux b arest (i + 1) row (scanRowBest row i 0 best)

/-- difflib SequenceMatcher.find_longest_match over whole strings (no
junk): returns (start in a, start in b, size). -/
def find_longest_match (a b : List Char) : Nat × Nat × Nat :=
  flmAux b a 0 (List.replicate b.length 0) (0, 0, 0)

/-- Total size of all matching blocks (difflib get_matching_blocks):
recurse left and right of the longest match. -/
def matching_total : Nat → List Char → List Char → Nat
  | 0, _, _ => 0
  | f + 1, a, b =>
    let m := find_longest_match a b
    if m.2.2 = 0 then 0
    else
      matching_total f (a.take m.1) (b.take m.2.1) + m.2.2 +
        matching_total f (a.drop (m.1 + m.2.2)) (b.drop (m.2.1 + m.2.2))

/-- SequenceMatcher(None, a, b).ratio() >= 0.6, decided exactly:
2*M/(la+lb) >= 3/5 iff 10*M >= 3*(la+lb) (difflib defines the ratio of
two empty strings as 1). -/
def ratio_at_least_point_six (a b : String) : Bool :=
  let al := a.toList
  let bl := b.toList
  decide (3 * (al.length + bl.length) ≤ 10 * matching_total (al.length + bl.length + 1) al bl)

/-
Entity resolution (query_router.find_similar_entities, threshold 0.6).
-/

/-- The candidate additions performed for one non-exact node: append on
substring containment in either direction, then independently append on
similarity ratio at least the threshold (possibly duplicating). -/
def similar_step (el : String) (n : String) (acc : List String) : List String :=
  let nl := pyLower n
  let acc1 := if containsSub nl el || containsSub el nl then acc ++ [n] else acc
  if ratio_at_least_point_six el nl then acc1 ++ [n] else acc1

/-- Node loop of find_similar_entities: an exact case-insensitive match
returns immediately as a single-element list, discarding accumulated
candidates. -/
def find_similar_aux (el : String) : List String → List String → List String
  | [], acc => acc
  | n :: rest, acc =>
    if el = pyLower n then [n] else find_similar_aux el rest (similar_step el n acc)

/-- query_router.QueryRouter.find_similar_entities (default threshold). -/
def find_similar_entities (g : Graph) (entity : String) : List String :=
  find_similar_aux (pyLower entity) g.nodeLabels []

/-
Entity information (query_router.QueryRouter.get_entity_information).
The Python empty dictionary returned for an unknown entity is falsy and
modelled as none.
-/

structure EntityInfo where
  entity : String
  attributes : List (String × String)
  outgoingRelations : List (String × String)
  incomingRelations : List (String × String)
  neighbors : List String
deriving DecidableEq, Repr

/-- query_router.QueryRouter.get_entity_information: outgoing relations
as (target, relation), incoming as (source, relation), neighbors are the
DiGraph successors. -/
def get_entity_information (g : Graph) (entity : String) : Option EntityInfo :=
  if g.hasNode entity then
    some
      { entity := entity
        attributes := ((g.nodes.find? (fun p => decide (p.1 = entity))).map Prod.snd).getD []
        outgoingRelations := (g.edges.filter (fun e => decide (e.1.1 = entity))).map
          (fun e => (e.1.2, e.2))
        incomingRelations := (g.edges.filter (fun e => decide (e.1.2 = entity))).map
          (fun e => (e.1.1, e.2))
        neighbors := g.successors entity }
  else none

/-
Question classification (query_router.classify_question).

The templates are literal texts around lazy dot-groups, searched
case-insensitively anywhere in the question (which classify_question
lowercases first): PRE(.*?)MID(.*?)POST or PRE(.*?)POST with POST = "?".
re.search scans start positions left to right; a lazy group grows one
character at a time (never across a newline) until the following literal
matches and the rest of the pattern succeeds.
-/

/-- Lazy group capture before a literal: minimal prefix of cs (without
newline) such that stop follows; returns the captured group. -/
def lazyStop (stop : List Char) : Nat → List Char → Option (List Char)
  | 0, cs => if stop.isPrefixOf cs then some [] else none
  | f + 1, cs =>
    if stop.isPrefixOf cs then some []
    else
      match cs with
      | [] => none
      | c :: t =>
        if c = '\n' then none else (lazyStop stop f t).map (fun g => c :: g)

/-- Match (.*?)MID(.*?)POST at the current position, with full
backtracking of the first group past failed MID occurrences. -/
def twoGroupTail (mid post : List Char) : Nat → List Char → Option (List Char × List Char)
  | 0, _ => none
  | f + 1, cs =>
    match
      (if mid.isPrefixOf cs then
        (lazyStop post (cs.length + 1) (cs.drop mid.length)).map (fun g2 => (([] : List Char), g2))
      else none) with
    | some r => some r
    | none =>
      match cs with
      | [] => none
      | c :: t =>
        if c = '\n' then none
        else (twoGroupTail mid post f t).map (fun r => (c :: r.1, r.2))

/-- re.search for PRE(.*?)MID(.*?)POST. -/
def searchTwoAux (pre mid post : List Char) : Nat → List Char → Option (String × String)
  | 0, _ => none
  | f + 1, cs =>
    match
      (if pre.isPrefixOf cs then twoGroupTail mid post (cs.length + 1) (cs.drop pre.length)
       else none) with
    | some (g1, g2) => some (String.mk g1, String.mk g2)
    | none =>
      match cs with
      | [] => none
      | _ :: t => searchTwoAux pre mid post f t

/-- re.search for a two-group question template. -/
def reSearchTwo (pre mid post q : String) : Option (String × String) :=
  searchTwoAux pre.toList mid.toList post.toList (q.length + 1) q.toList

/-- re.search for PRE(.*?)POST. -/
def searchOneAux (pre post : List Char) : Nat → List Char → Option String
  | 0, _ => none
  | f + 1, cs =>
    match
      (if pre.isPrefixOf cs then
        (lazyStop post (cs.length + 1) (cs.drop pre.length)).map String.mk
       else none) with
    | some g => some g
    | none =>
      match cs with
      | [] => none
      | _ :: t => searchOneAux pre post f t

/-- re.search for a one-group question template. -/
def reSearchOne (pre post q : String) : Option String :=
  searchOneAux pre.toList post.toList (q.length + 1) q.toList

/-- The relationship stage of the pattern table: the two relationship
templates tried in order on the lowercased question. -/
def relationship_search (ql : String) : Option (String × String) :=
  match reSearchTwo "what is the relationship between " " and " "?" ql with
  | some r => some r
  | none => reSearchTwo "how is " " related to " "?" ql

/-- The what_is stage of the pattern table. -/
def what_is_search (ql : String) : Option String :=
  match reSearchOne "what is " "?" ql with
  | some r => some r
  | none => reSearchOne "what are " "?" ql

/-- The who_is stage of the pattern table. -/
def who_is_search (ql : String) : Option String :=
  match reSearchOne "who is " "?" ql with
  | some r => some r
  | none => reSearchOne "who are " "?" ql

/-- Question-word filter of extract_entities_from_question. -/
def question_words : List String := ["What", "Who", "Where", "When", "How", "Why", "Which"]

/-- query_router.QueryRouter.extract_entities_from_question: capitalized
runs and quoted phrases of the original question, as an ordered list
(duplicates kept), minus question words. -/
def extract_entities_from_question (question : String) : List String :=
  (capScan (question.length + 1) false question.toList ++
    quotedScan (question.length + 1) question.toList).filter
    (fun e => !(question_words.contains e))

/-- query_router.QueryRouter.classify_question: pattern stages in table
order (relationship, what_is, who_is), else general with lexical
mentions. -/
def classify_question (question : String) : String × List String :=
  let ql := pyLower question
  match relationship_search ql with
  | some (a, b) => ("relationship", [pyStrip a, pyStrip b])
  | none =>
    match what_is_search ql with
    | some a => ("what_is", [pyStrip a])
    | none =>
      match who_is_search ql with
      | some a => ("who_is", [pyStrip a])
      | none => ("general", extract_entities_from_question question)

/-
Traversal and answers (query_router answer functions).
-/

/-- Breadth-first search for an unweighted shortest path, expanding
successors in adjacency order; visited marks every enqueued node.  The
choice among equal-length paths is implementation-defined in the source
(nx.shortest_path); no claim depends on it. -/
def bfsAux (g : Graph) (tgt : String) :
    Nat → List String → List (String × List String) → Option (List String)
  | 0, _, _ => none
  | _ + 1, _, [] => none
  | f + 1, visited, (n, revPath) :: qs =>
    if n = tgt then some revPath.reverse
    else
      let fresh := (g.successors n).filter (fun m => !(visited.contains m))
      bfsAux g tgt f (visited ++ fresh) (qs ++ fresh.map (fun m => (m, m :: revPath)))

/-- query_router.QueryRouter.find_path_between_entities: shortest path
rendered as (source, relation, target) triples; no path gives []. -/
def find_path_between_entities (g : Graph) (e1 e2 : String) :
    List (String × String × String) :=
  match bfsAux g e2 ((g.nodeLabels.length + g.edges.length + 2) * (g.nodeLabels.length + 2))
      [e1] [(e1, [e1])] with
  | none => []
  | some ns => (ns.zip ns.tail).map (fun p => (p.1, edgeRel g p.1 p.2, p.2))

/-- query_router.QueryRouter.answer_what_is_question. -/
def answer_what_is_question (g : Graph) (entity : String) : String :=
  match find_similar_entities g entity with
  | [] =>
    "I don" ++ apos ++ "t have information about " ++ apos ++ entity ++ apos ++
      " in the knowledge graph."
  | target :: _ =>
    match get_entity_information g target with
    | none =>
      "I found " ++ apos ++ target ++ apos ++ " but don" ++ apos ++
        "t have detailed information about it."
    | some info =>
      let p1 := ["Based on the knowledge graph, here" ++ apos ++ "s what I know about " ++
        target ++ ":"]
      let p2 :=
        if info.outgoingRelations.isEmpty then []
        else "\nRelationships:" ::
          info.outgoingRelations.map (fun r => "- " ++ target ++ " " ++ r.2 ++ " " ++ r.1)
      let p3 :=
        if info.incomingRelations.isEmpty then []
        else "\nIs related to:" ::
          info.incomingRelations.map (fun r => "- " ++ r.1 ++ " " ++ r.2 ++ " " ++ target)
      let p4 :=
        if info.outgoingRelations.isEmpty && info.incomingRelations.isEmpty then
          ["\nNo specific relationships found in the knowledge graph."]
        else []
      String.join (p1 ++ p2 ++ p3 ++ p4)

/-- query_router.QueryRouter.answer_relationship_question. -/
def answer_relationship_question (g : Graph) (e1 e2 : String) : String :=
  match find_similar_entities g e1 with
  | [] =>
    "I don" ++ apos ++ "t have information about " ++ apos ++ e1 ++ apos ++
      " in the knowledge graph."
  | t1 :: _ =>
    match find_similar_entities g e2 with
    | [] =>
      "I don" ++ apos ++ "t have information about " ++ apos ++ e2 ++ apos ++
        " in the knowledge graph."
    | t2 :: _ =>
      if g.hasEdge t1 t2 then t1 ++ " " ++ edgeRel g t1 t2 ++ " " ++ t2 ++ "."
      else if g.hasEdge t2 t1 then t2 ++ " " ++ edgeRel g t2 t1 ++ " " ++ t1 ++ "."
      else
        match find_path_between_entities g t1 t2 with
        | [] =>
          "No relationship found between " ++ t1 ++ " and " ++ t2 ++
            " in the knowledge graph."
        | path =>
          "There is an indirect relationship: " ++
            String.intercalate " -> "
              (path.map (fun s => s.1 ++ " (" ++ s.2.1 ++ ") " ++ s.2.2))

/-- The line rendered by answer_general_question for one mention: none
when the mention does not resolve or the resolved entity has no
information; lists at most the first five DiGraph neighbors
(successors). -/
def general_entity_line (g : Graph) (entity : String) : Option String :=
  match find_similar_entities g entity with
  | [] => none
  | target :: _ =>
    match get_entity_information g target with
    | none => none
    | some info =>
      some ("**" ++ target ++ "**: Connected to " ++
        String.intercalate ", " (info.neighbors.take 5))

/-- query_router.QueryRouter.answer_general_question. -/
def answer_general_question (g : Graph) (entities : List String) : String :=
  if entities.isEmpty then "I need more specific information to answer your question."
  else
    let relevant := entities.filterMap (general_entity_line g)
    if relevant.isEmpty then
      "I couldn" ++ apos ++ "t find relevant information for the entities mentioned in your question."
    else "Here" ++ apos ++ "s what I found:\n" ++ String.intercalate "\n" relevant

/-- Intent dispatch of query_router.answer_question after the
empty-graph check, in source order. -/
def answer_dispatch (g : Graph) : String × List String → String
  | ("what_is", e :: _) => answer_what_is_question g e
  | ("who_is", e :: _) => answer_what_is_question g e
  | ("relationship", e1 :: e2 :: _) => answer_relationship_question g e1 e2
  | (_, es) => answer_general_question g es

/-- query_router.answer_question: a total function to a string (the
source has no raising path; every failure is an answer sentence). -/
def answer_question (g : Graph) (question : String) : String :=
  if g.nodeLabels.isEmpty then "The knowledge graph is empty. Please ingest some text first."
  else answer_dispatch g (classify_question question)

/-- Follows the claim and spec words, for comparison with the source
filter entityOverlap: an entity overlaps a captured side when either
lowercased string contains the other (substring in either direction). -/
def claim_either_direction_overlap (entities : List String) (side : String) : Bool :=
  entities.any (fun e =>
    containsSub (pyLower e) (pyLower side) || containsSub (pyLower side) (pyLower e))

/-
Helper lemmas about the extraction loops.
-/

/-- The inner loop of extract_relations accumulates exactly the filtered
stripped matches of one pattern. -/
theorem extract_relations_inner (entities : List String) (tag : String) :
    ∀ (l : List (String × String)) (acc : List (String × String × String)),
      l.foldl (fun acc2 m =>
        if relOverlapKeep entities (pyStrip m.1, tag, pyStrip m.2)
        then acc2 ++ [(pyStrip m.1, tag, pyStrip m.2)]
        else acc2) acc =
      acc ++ (l.map (fun m => (pyStrip m.1, tag, pyStrip m.2))).filter
        (relOverlapKeep entities) := by
  intro l
  induction l with
  | nil => intro acc; simp
  | cons x t ih =>
    intro acc
    cases h : relOverlapKeep entities (pyStrip x.1, tag, pyStrip x.2) with
    | false => simp [h, ih]
    | true => simp [h, ih]

/-- extract_relations is the entity-overlap filter of the raw pattern
matches. -/
theorem extract_relations_eq_filter (text : String) (entities : List String) :
    extract_relations text entities =
      (raw_relation_matches text).filter (relOverlapKeep entities) := by
  unfold extract_relations raw_relation_matches
  suffices h : ∀ (pats : List (List (List String) × String))
      (acc : List (String × String × String)),
      pats.foldl (fun acc pr =>
        (relScan pr.1 (text.length + 1) text.toList).foldl (fun acc2 m =>
          if relOverlapKeep entities (pyStrip m.1, pr.2, pyStrip m.2)
          then acc2 ++ [(pyStrip m.1, pr.2, pyStrip m.2)]
          else acc2) acc) acc =
      acc ++ ((pats.map (fun pr =>
        (relScan pr.1 (text.length + 1) text.toList).map
          (fun m => (pyStrip m.1, pr.2, pyStrip m.2)))).flatten).filter
        (relOverlapKeep entities) by
    simpa using h relation_patterns []
  intro pats
  induction pats with
  | nil => intro acc; simp
  | cons pr t ih =>
    intro acc
    simp only [List.foldl_cons, List.map_cons, List.flatten_cons, List.filter_append]
    rw [extract_relations_inner entities pr.2, ih, List.append_assoc]

/-- C1 (counterexample): with entity set [John, Seattle] and text
"Johnson lives in Seattle", the unique surface-pattern match has subject
Johnson, which satisfies the claimed either-direction overlap condition
(the entity John is contained in it), as does the object Seattle; yet
the match is dropped, because the source only tests containment of the
captured side inside an entity. -/
theorem C1_counterexample :
    raw_relation_matches "Johnson lives in Seattle" =
      [("Johnson", "lives_in", "Seattle")] ∧
    claim_either_direction_overlap ["John", "Seattle"] "Johnson" = true ∧
    claim_either_direction_overlap ["John", "Seattle"] "Seattle" = true ∧
    extract_relations "Johnson lives in Seattle" ["John", "Seattle"] = [] := by
  exact ⟨by decide, by decide, by decide, by decide⟩

/-- C1 (amended): a surface-pattern match is kept in the output triple
list if and only if some entity of the chunk contains the lowercased
captured subject as a substring, and likewise some entity contains the
lowercased captured object; containment only counts in that one
direction (a subject merely containing an entity does not qualify). -/
theorem C1_amended_overlap_filter :
    ∀ (text : String) (entities : List String) (s r o : String),
      (s, r, o) ∈ extract_relations text entities ↔
        ((s, r, o) ∈ raw_relation_matches text ∧
          entityOverlap entities s = true ∧ entityOverlap entities o = true) := by
  intro text entities s r o
  rw [extract_relations_eq_filter, List.mem_filter]
  simp [relOverlapKeep, Bool.and_eq_true]

/-- C2 (counterexample): for the input
["John works at Microsoft. He lives in Seattle."] the built graph
contains no lives_in edge from John to Seattle: the lives-in sentence
captures the pronoun He as subject, which overlaps no extracted entity,
so the triple is dropped. -/
theorem C2_counterexample :
    ((build_graph ["John works at Microsoft. He lives in Seattle."]).edges.any
      (fun e => e.1 == ("John", "Seattle") && e.2 == "lives_in")) = false := by
  decide

/-- C2 (amended): the graph built from
["John works at Microsoft. He lives in Seattle."] has nodes John,
Microsoft and Seattle and a works_at edge from John to Microsoft, but no
edge at all from John to Seattle (the lives_in triple is dropped because
its captured subject is the pronoun He). -/
theorem C2_amended_example_graph :
    "John" ∈ (build_graph ["John works at Microsoft. He lives in Seattle."]).nodeLabels ∧
    "Microsoft" ∈ (build_graph ["John works at Microsoft. He lives in Seattle."]).nodeLabels ∧
    "Seattle" ∈ (build_graph ["John works at Microsoft. He lives in Seattle."]).nodeLabels ∧
    (("John", "Microsoft"), "works_at") ∈
      (build_graph ["John works at Microsoft. He lives in Seattle."]).edges ∧
    ((build_graph ["John works at Microsoft. He lives in Seattle."]).edges.any
      (fun e => e.1 == ("John", "Seattle"))) = false := by
  exact ⟨by decide, by decide, by decide, by decide, by decide⟩

/-- C6: on a graph with no nodes, answer_question returns the fixed
empty-graph sentence (which contains the word "empty") for every
question, before any classification or resolution; the embedded
answer_question is a total function into strings, matching the absence
of any raising path in the source. -/
theorem C6_empty_graph_answer :
    ∀ (g : Graph) (q : String), g.nodeLabels = [] →
      answer_question g q = "The knowledge graph is empty. Please ingest some text first." ∧
      containsSub (answer_question g q) "empty" = true := by
  intro g q h
  have he : g.nodeLabels.isEmpty = true := by simp [h]
  have ha : answer_question g q =
      "The knowledge graph is empty. Please ingest some text first." := by
    simp [answer_question, he]
  exact ⟨ha, by rw [ha]; decide⟩

/-- C6 witness at the empty graph and a concrete question. -/
theorem C6_empty_graph_answer_witness :
    (Graph.empty.nodeLabels = []) ∧
    (answer_question Graph.empty "Who founded Rome?" =
      "The knowledge graph is empty. Please ingest some text first." ∧
    containsSub (answer_question Graph.empty "Who founded Rome?") "empty" = true) :=
  ⟨rfl, C6_empty_graph_answer Graph.empty "Who founded Rome?" rfl⟩

/-- C9: whenever the relationship stage of the pattern table matches the
lowercased question, classify_question returns the relationship intent
with the two captured (stripped) mentions, and in particular never the
what_is or who_is intent, regardless of whether those templates would
also match. -/
theorem C9_relationship_priority :
    ∀ (q a b : String), relationship_search (pyLower q) = some (a, b) →
      classify_question q = ("relationship", [pyStrip a, pyStrip b]) ∧
      (classify_question q).1 ≠ "what_is" ∧ (classify_question q).1 ≠ "who_is" := by
  intro q a b h
  have hc : classify_question q = ("relationship", [pyStrip a, pyStrip b]) := by
    unfold classify_question
    simp only [h]
  exact ⟨hc, by rw [hc]; simp, by rw [hc]; simp⟩

/-- C9 witness: a question that matches both the relationship template
and the what_is template is classified as relationship. -/
theorem C9_relationship_priority_witness :
    relationship_search (pyLower "What is the relationship between Alice and Bob?") =
      some ("alice", "bob") ∧
    what_is_search (pyLower "What is the relationship between Alice and Bob?") =
      some "the relationship between alice and bob" ∧
    classify_question "What is the relationship between Alice and Bob?" =
      ("relationship", ["alice", "bob"]) ∧
    (classify_question "What is the relationship between Alice and Bob?").1 ≠ "what_is" := by
  have h := C9_relationship_priority "What is the relationship between Alice and Bob?"
    "alice" "bob" (by decide)
  refine ⟨by decide, by decide, ?_, ?_⟩
  · rw [h.1]; decide
  · exact h.2.1

/-- C5 (counterexample): a non-empty graph can itself contain a node
that resolves for the mention "unknown entity" (here the node
Unknown Entity is an exact case-insensitive match), in which case the
answer describes that node and does not contain the no-information
sentence. -/
theorem C5_counterexample :
    ((Graph.empty.addNode "Unknown Entity" [("type", "entity")]).nodeLabels ≠ []) ∧
    containsSub
      (answer_question (Graph.empty.addNode "Unknown Entity" [("type", "entity")])
        "What is Unknown Entity?")
      ("don" ++ apos ++ "t have information") = false := by
  exact ⟨by decide, by decide⟩

/-- C5 (amended): for every graph with at least one node in which the
mention "unknown entity" resolves to no candidate (no exact, substring
or similarity match), answer_question on "What is Unknown Entity?"
returns a string containing the no-information phrase of the claim. -/
theorem C5_amended_unknown_entity :
    ∀ g : Graph, g.nodeLabels ≠ [] →
      find_similar_entities g "unknown entity" = [] →
      containsSub (answer_question g "What is Unknown Entity?")
        ("don" ++ apos ++ "t have information") = true := by
  intro g hne hsim
  have he : g.nodeLabels.isEmpty = false := by
    cases h : g.nodeLabels with
    | nil => exact absurd h hne
    | cons a t => simp
  have hc : classify_question "What is Unknown Entity?" = ("what_is", ["unknown entity"]) := by
    decide
  have ha : answer_question g "What is Unknown Entity?" =
      "I don" ++ apos ++ "t have information about " ++ apos ++ "unknown entity" ++ apos ++
        " in the knowledge graph." := by
    unfold answer_question
    rw [he, hc]
    simp only [Bool.false_eq_true, if_false, answer_dispatch, answer_what_is_question, hsim]
  rw [ha]
  decide

/-- C5 witness: a concrete one-node graph in which the mention resolves
to nothing. -/
theorem C5_amended_unknown_entity_witness :
    ((Graph.empty.addNode "Alice" [("type", "entity")]).nodeLabels ≠ []) ∧
    (find_similar_entities (Graph.empty.addNode "Alice" [("type", "entity")])
      "unknown entity" = []) ∧
    containsSub
      (answer_question (Graph.empty.addNode "Alice" [("type", "entity")])
        "What is Unknown Entity?")
      ("don" ++ apos ++ "t have information") = true :=
  ⟨by decide, by decide,
    C5_amended_unknown_entity (Graph.empty.addNode "Alice" [("type", "entity")])
      (by decide) (by decide)⟩

/-- An exact case-insensitive match anywhere in the node list makes
find_similar_aux return exactly the first such node as a singleton,
discarding every accumulated candidate. -/
theorem find_similar_aux_exact (el : String) :
    ∀ (l acc : List String), (∃ n, n ∈ l ∧ pyLower n = el) →
      ∃ n, find_similar_aux el l acc = [n] ∧ pyLower n = el ∧ n ∈ l := by
  intro l
  induction l with
  | nil =>
    intro acc h
    obtain ⟨n, hn, _⟩ := h
    exact absurd hn (List.not_mem_nil n)
  | cons n0 rest ih =>
    intro acc h
    by_cases he : el = pyLower n0
    · refine ⟨n0, ?_, he.symm, List.mem_cons_self n0 rest⟩
      simp [find_similar_aux, he]
    · obtain ⟨n, hn, hpy⟩ := h
      have hn' : n ∈ rest := by
        rcases List.mem_cons.mp hn with h1 | h1
        · exact absurd (h1 ▸ hpy).symm he
        · exact h1
      obtain ⟨m, hm, hmpy, hmem⟩ := ih (similar_step el n0 acc) ⟨n, hn', hpy⟩
      refine ⟨m, ?_, hmpy, List.mem_cons_of_mem n0 hmem⟩
      simp only [find_similar_aux, if_neg he]
      exact hm

/-- C8: a mention case-insensitively equal to some node label resolves
to a single-element list holding one such node label; no substring or
similarity candidates appear, even those encountered earlier in
iteration order. -/
theorem C8_exact_match_wins :
    ∀ (g : Graph) (m : String), (∃ n, n ∈ g.nodeLabels ∧ pyLower n = pyLower m) →
      ∃ n, find_similar_entities g m = [n] ∧ pyLower n = pyLower m ∧ n ∈ g.nodeLabels := by
  intro g m h
  exact find_similar_aux_exact (pyLower m) g.nodeLabels [] h

/-- C8 witness: a graph whose second node matches the mention BETA
case-insensitively, while the first node does not. -/
theorem C8_exact_match_wins_witness :
    (∃ n, n ∈ ((Graph.empty.addNode "Alpha" [("type", "entity")]).addNode "Beta"
      [("type", "entity")]).nodeLabels ∧ pyLower n = pyLower "BETA") ∧
    (∃ n, find_similar_entities ((Graph.empty.addNode "Alpha" [("type", "entity")]).addNode
        "Beta" [("type", "entity")]) "BETA" = [n] ∧ pyLower n = pyLower "BETA" ∧
      n ∈ ((Graph.empty.addNode "Alpha" [("type", "entity")]).addNode "Beta"
        [("type", "entity")]).nodeLabels) :=
  ⟨⟨"Beta", by decide, by decide⟩,
    C8_exact_match_wins ((Graph.empty.addNode "Alpha" [("type", "entity")]).addNode "Beta"
      [("type", "entity")]) "BETA" ⟨"Beta", by decide, by decide⟩⟩

/-- Candidates appended by one resolution step are the scanned node or
carried over. -/
theorem mem_similar_step (el n : String) (acc : List String) :
    ∀ x, x ∈ similar_step el n acc → x ∈ acc ∨ x = n := by
  intro x hx
  simp only [similar_step] at hx
  split at hx
  · rcases List.mem_append.mp hx with h1 | h1
    · split at h1
      · rcases List.mem_append.mp h1 with h2 | h2
        · exact Or.inl h2
        · exact Or.inr (List.mem_singleton.mp h2)
      · exact Or.inl h1
    · exact Or.inr (List.mem_singleton.mp h1)
  · split at hx
    · rcases List.mem_append.mp hx with h1 | h1
      · exact Or.inl h1
      · exact Or.inr (List.mem_singleton.mp h1)
    · exact Or.inl hx

/-- Every element returned by find_similar_aux is carried in from the
accumulator or is one of the scanned nodes. -/
theorem find_similar_aux_mem (el : String) :
    ∀ (l acc : List String) (x : String), x ∈ find_similar_aux el l acc →
      x ∈ acc ∨ x ∈ l := by
  intro l
  induction l with
  | nil => intro acc x hx; exact Or.inl hx
  | cons n0 rest ih =>
    intro acc x hx
    by_cases he : el = pyLower n0
    · simp only [find_similar_aux, if_pos he] at hx
      exact Or.inr (List.mem_singleton.mp hx ▸ List.mem_cons_self n0 rest)
    · simp only [find_similar_aux, if_neg he] at hx
      rcases ih (similar_step el n0 acc) x hx with h1 | h1
      · rcases mem_similar_step el n0 acc x h1 with h2 | h2
        · exact Or.inl h2
        · exact Or.inr (h2 ▸ List.mem_cons_self n0 rest)
      · exact Or.inr (List.mem_cons_of_mem n0 h1)

/-- C10: a non-empty resolution result starts with a node of the graph,
so get_entity_information on it returns information (the Python empty
dictionary, modelled as none, is impossible there) and the fallback
no-detailed-information fallback branch of the
what-is answer path is unreachable. -/
theorem C10_resolved_head_in_graph :
    ∀ (g : Graph) (m t : String) (rest : List String),
      find_similar_entities g m = t :: rest →
      t ∈ g.nodeLabels ∧ get_entity_information g t ≠ none := by
  intro g m t rest h
  have ht : t ∈ g.nodeLabels := by
    have hmem : t ∈ find_similar_entities g m := by
      rw [h]; exact List.mem_cons_self t rest
    rcases find_similar_aux_mem (pyLower m) g.nodeLabels [] t hmem with h1 | h1
    · exact absurd h1 (List.not_mem_nil t)
    · exact h1
  refine ⟨ht, ?_⟩
  have hhas : g.hasNode t = true := by
    unfold Graph.hasNode
    exact decide_eq_true ht
  unfold get_entity_information
  rw [hhas]
  simp

/-- C10 witness at a concrete graph and mention. -/
theorem C10_resolved_head_in_graph_witness :
    (find_similar_entities (Graph.empty.addNode "Alice" [("type", "entity")]) "alice" =
      ["Alice"]) ∧
    ("Alice" ∈ (Graph.empty.addNode "Alice" [("type", "entity")]).nodeLabels ∧
      get_entity_information (Graph.empty.addNode "Alice" [("type", "entity")]) "Alice" ≠
        none) :=
  ⟨by decide,
    C10_resolved_head_in_graph (Graph.empty.addNode "Alice" [("type", "entity")])
      "alice" "Alice" [] (by decide)⟩

/-
Structural lemmas about the graph operations.
-/

/-- ensureNode never touches the edge list. -/
theorem edges_ensureNode (g : Graph) (n : String) : (g.ensureNode n).edges = g.edges := by
  unfold Graph.ensureNode
  split <;> rfl

/-- addNode never touches the edge list. -/
theorem edges_addNode (g : Graph) (n : String) (a : List (String × String)) :
    (g.addNode n a).edges = g.edges := by
  unfold Graph.addNode
  split <;> rfl

/-- Overwriting the relation of an edge keeps the ordered-pair keys. -/
theorem map_fst_update (l : List ((String × String) × String)) (k : String × String)
    (r : String) :
    (l.map (fun e => if e.1 = k then (e.1, r) else e)).map Prod.fst = l.map Prod.fst := by
  induction l with
  | nil => rfl
  | cons e t ih =>
    by_cases h : e.1 = k
    · simp [h, ih]
    · simp [h, ih]

/-- Finding an overwritten key yields the new relation. -/
theorem find_update (k : String × String) (r : String) :
    ∀ l : List ((String × String) × String), k ∈ l.map Prod.fst →
      (l.map (fun e => if e.1 = k then (e.1, r) else e)).find?
        (fun e => decide (e.1 = k)) = some (k, r) := by
  intro l
  induction l with
  | nil => intro h; exact absurd h (List.not_mem_nil k)
  | cons e t ih =>
    intro h
    by_cases he : e.1 = k
    · simp [List.find?, he]
    · have h' : k ∈ t.map Prod.fst := by
        rw [List.map_cons] at h
        rcases List.mem_cons.mp h with h1 | h1
        · exact absurd h1.symm he
        · exact h1
      simp only [List.map_cons, if_neg he, List.find?]
      rw [decide_eq_false he]
      exact ih h'

/-- The edge list of addEdge when the ordered pair is already present:
same keys, in place. -/
theorem addEdge_edges_mem (g : Graph) (u v r : String)
    (hmem : (u, v) ∈ g.edges.map Prod.fst) :
    (g.addEdge u v r).edges =
      g.edges.map (fun e => if e.1 = (u, v) then (e.1, r) else e) := by
  have h2 : ((g.ensureNode u).ensureNode v).edges = g.edges := by
    rw [edges_ensureNode, edges_ensureNode]
  have hhe : ((g.ensureNode u).ensureNode v).hasEdge u v = true := by
    unfold Graph.hasEdge
    rw [h2]
    exact decide_eq_true hmem
  unfold Graph.addEdge
  rw [if_pos hhe, h2]

/-- The edge list of addEdge when the ordered pair is new: appended. -/
theorem addEdge_edges_new (g : Graph) (u v r : String)
    (hmem : (u, v) ∉ g.edges.map Prod.fst) :
    (g.addEdge u v r).edges = g.edges ++ [((u, v), r)] := by
  have h2 : ((g.ensureNode u).ensureNode v).edges = g.edges := by
    rw [edges_ensureNode, edges_ensureNode]
  have hhe : ((g.ensureNode u).ensureNode v).hasEdge u v = false := by
    unfold Graph.hasEdge
    rw [h2]
    exact decide_eq_false hmem
  unfold Graph.addEdge
  rw [if_neg (by rw [hhe]; exact Bool.false_ne_true), h2]

/-- A step function preserving an invariant preserves it over foldl. -/
theorem foldl_preserve {α β : Type} (P : α → Prop) (f : α → β → α)
    (h : ∀ a b, P a → P (f a b)) :
    ∀ (l : List β) (a : α), P a → P (l.foldl f a) := by
  intro l
  induction l with
  | nil => intro a ha; exact ha
  | cons x t ih => intro a ha; exact ih (f a x) (h a x ha)

/-- The claimed edge-key uniqueness invariant: at most one edge per
ordered (source, target) pair. -/
def uniqueEdgeKeys (g : Graph) : Prop := (g.edges.map Prod.fst).Nodup

theorem uniqueEdgeKeys_addNode (g : Graph) (n : String) (a : List (String × String)) :
    uniqueEdgeKeys g → uniqueEdgeKeys (g.addNode n a) := by
  intro h
  unfold uniqueEdgeKeys
  rw [edges_addNode]
  exact h

theorem uniqueEdgeKeys_addEdge (g : Graph) (u v r : String) :
    uniqueEdgeKeys g → uniqueEdgeKeys (g.addEdge u v r) := by
  intro h
  unfold uniqueEdgeKeys
  by_cases hmem : (u, v) ∈ g.edges.map Prod.fst
  · rw [addEdge_edges_mem g u v r hmem, map_fst_update]
    exact h
  · rw [addEdge_edges_new g u v r hmem, List.map_append]
    simp only [List.map_cons, List.map_nil]
    rw [List.nodup_append]
    exact ⟨h, List.nodup_singleton (u, v), by simpa [List.disjoint_singleton] using hmem⟩

theorem uniqueEdgeKeys_processChunk (g : Graph) (c : String) :
    uniqueEdgeKeys g → uniqueEdgeKeys (processChunk g c) := by
  intro h
  unfold processChunk
  apply foldl_preserve uniqueEdgeKeys
  · intro a t ha
    cases hs : find_best_entity_match t.1 (extract_entities c) with
    | none => simpa [hs] using ha
    | some s =>
      cases ho : find_best_entity_match t.2.2 (extract_entities c) with
      | none => simpa [hs, ho] using ha
      | some o =>
        simp only [hs, ho]
        split
        · exact uniqueEdgeKeys_addEdge a s o t.2.1 ha
        · exact ha
  · apply foldl_preserve uniqueEdgeKeys
    · intro a e ha
      split
      · exact ha
      · exact uniqueEdgeKeys_addNode a e [("type", "entity")] ha
    · exact h

/-- C4: graph assembly produces at most one edge per ordered (source,
target) pair for every chunk list; and adding an edge for a pair that
already has one overwrites its relation label in place (same keys, new
label found at the pair) instead of adding a parallel edge. -/
theorem C4_single_edge_last_write_wins :
    (∀ chunks : List String, ((build_graph_from_chunks chunks).edges.map Prod.fst).Nodup) ∧
    (∀ (g : Graph) (u v r : String), (u, v) ∈ g.edges.map Prod.fst →
      (g.addEdge u v r).edges.map Prod.fst = g.edges.map Prod.fst ∧
      (g.addEdge u v r).edges.find? (fun e => decide (e.1 = (u, v))) = some ((u, v), r)) := by
  constructor
  · intro chunks
    exact foldl_preserve uniqueEdgeKeys processChunk uniqueEdgeKeys_processChunk chunks
      Graph.empty (by simp [uniqueEdgeKeys, Graph.empty])
  · intro g u v r hmem
    constructor
    · rw [addEdge_edges_mem g u v r hmem, map_fst_update]
    · rw [addEdge_edges_mem g u v r hmem]
      exact find_update (u, v) r g.edges hmem

/-- C4 witness: overwriting the relation of an existing edge. -/
theorem C4_single_edge_last_write_wins_witness :
    ((("A", "B") ∈ (Graph.empty.addEdge "A" "B" "has").edges.map Prod.fst) ∧
      (((Graph.empty.addEdge "A" "B" "has").addEdge "A" "B" "works_at").edges.map Prod.fst =
        (Graph.empty.addEdge "A" "B" "has").edges.map Prod.fst ∧
      ((Graph.empty.addEdge "A" "B" "has").addEdge "A" "B" "works_at").edges.find?
        (fun e => decide (e.1 = ("A", "B"))) = some (("A", "B"), "works_at"))) :=
  ⟨by decide,
    C4_single_edge_last_write_wins.2 (Graph.empty.addEdge "A" "B" "has") "A" "B" "works_at"
      (by decide)⟩

/-
No-dangling-edges invariant (claim C7).
-/

/-- Node labels only grow under addNode. -/
theorem mem_nodeLabels_addNode (g : Graph) (n x : String) (a : List (String × String))
    (h : x ∈ g.nodeLabels) : x ∈ (g.addNode n a).nodeLabels := by
  unfold Graph.addNode
  split
  · unfold Graph.nodeLabels at h ⊢
    simp only
    obtain ⟨p, hp, hpx⟩ := List.mem_map.mp h
    rw [List.map_map]
    apply List.mem_map.mpr
    refine ⟨p, hp, ?_⟩
    by_cases hpn : p.1 = n
    · simp only [Function.comp_apply, if_pos hpn]
      exact hpx
    · simp only [Function.comp_apply, if_neg hpn]
      exact hpx
  · unfold Graph.nodeLabels at h ⊢
    simp only [List.map_append]
    exact List.mem_append_left _ h

/-- Node labels only grow under ensureNode. -/
theorem mem_nodeLabels_ensureNode (g : Graph) (n x : String)
    (h : x ∈ g.nodeLabels) : x ∈ (g.ensureNode n).nodeLabels := by
  unfold Graph.ensureNode
  split
  · exact h
  · unfold Graph.nodeLabels at h ⊢
    simp only [List.map_append]
    exact List.mem_append_left _ h

/-- ensureNode makes its node present. -/
theorem mem_nodeLabels_ensureNode_self (g : Graph) (n : String) :
    n ∈ (g.ensureNode n).nodeLabels := by
  unfold Graph.ensureNode
  split
  · next hh => exact of_decide_eq_true hh
  · unfold Graph.nodeLabels
    simp

/-- addEdge keeps the node list of the ensured graph. -/
theorem nodes_addEdge (g : Graph) (u v r : String) :
    (g.addEdge u v r).nodes = ((g.ensureNode u).ensureNode v).nodes := by
  unfold Graph.addEdge
  split <;> rfl

/-- The no-dangling-edges invariant: both endpoints of every edge are
nodes. -/
def noDangling (g : Graph) : Prop :=
  ∀ e ∈ g.edges, e.1.1 ∈ g.nodeLabels ∧ e.1.2 ∈ g.nodeLabels

theorem noDangling_addNode (g : Graph) (n : String) (a : List (String × String)) :
    noDangling g → noDangling (g.addNode n a) := by
  intro h e he
  rw [edges_addNode] at he
  exact ⟨mem_nodeLabels_addNode g n e.1.1 a (h e he).1,
    mem_nodeLabels_addNode g n e.1.2 a (h e he).2⟩

theorem noDangling_addEdge (g : Graph) (u v r : String) :
    noDangling g → noDangling (g.addEdge u v r) := by
  intro h e he
  have hlab : ∀ x : String, x ∈ g.nodeLabels → x ∈ (g.addEdge u v r).nodeLabels := by
    intro x hx
    unfold Graph.nodeLabels
    rw [nodes_addEdge]
    exact mem_nodeLabels_ensureNode _ v x (mem_nodeLabels_ensureNode g u x hx)
  have hu : u ∈ (g.addEdge u v r).nodeLabels := by
    unfold Graph.nodeLabels
    rw [nodes_addEdge]
    exact mem_nodeLabels_ensureNode _ v u (mem_nodeLabels_ensureNode_self g u)
  have hv : v ∈ (g.addEdge u v r).nodeLabels := by
    unfold Graph.nodeLabels
    rw [nodes_addEdge]
    exact mem_nodeLabels_ensureNode_self _ v
  by_cases hmem : (u, v) ∈ g.edges.map Prod.fst
  · rw [addEdge_edges_mem g u v r hmem] at he
    obtain ⟨e0, he0, heq⟩ := List.mem_map.mp he
    by_cases h0 : e0.1 = (u, v)
    · rw [if_pos h0] at heq
      rw [← heq]
      simp only
      rw [h0]
      exact ⟨hu, hv⟩
    · rw [if_neg h0] at heq
      rw [← heq]
      exact ⟨hlab e0.1.1 (h e0 he0).1, hlab e0.1.2 (h e0 he0).2⟩
  · rw [addEdge_edges_new g u v r hmem] at he
    rcases List.mem_append.mp he with h1 | h1
    · exact ⟨hlab e.1.1 (h e h1).1, hlab e.1.2 (h e h1).2⟩
    · have : e = ((u, v), r) := List.mem_singleton.mp h1
      rw [this]
      exact ⟨hu, hv⟩

theorem noDangling_processChunk (g : Graph) (c : String) :
    noDangling g → noDangling (processChunk g c) := by
  intro h
  unfold processChunk
  apply foldl_preserve noDangling
  · intro a t ha
    cases hs : find_best_entity_match t.1 (extract_entities c) with
    | none => simpa [hs] using ha
    | some s =>
      cases ho : find_best_entity_match t.2.2 (extract_entities c) with
      | none => simpa [hs, ho] using ha
      | some o =>
        simp only [hs, ho]
        split
        · exact noDangling_addEdge a s o t.2.1 ha
        · exact ha
  · apply foldl_preserve noDangling
    · intro a e ha
      split
      · exact ha
      · exact noDangling_addNode a e [("type", "entity")] ha
    · exact h

/-- C7: for every non-empty chunk list, both the source and the target
label of every edge of the assembled graph are members of its node set
(no dangling edges). -/
theorem C7_no_dangling_edges :
    ∀ chunks : List String, chunks ≠ [] →
      ∀ e ∈ (build_graph_from_chunks chunks).edges,
        e.1.1 ∈ (build_graph_from_chunks chunks).nodeLabels ∧
        e.1.2 ∈ (build_graph_from_chunks chunks).nodeLabels := by
  intro chunks _
  exact foldl_preserve noDangling processChunk noDangling_processChunk chunks Graph.empty
    (by intro e he; exact absurd he (List.not_mem_nil e))

/-- C7 witness at a concrete chunk list producing an edge. -/
theorem C7_no_dangling_edges_witness :
    ((["Alice has Bob"] : List String) ≠ []) ∧
    ((("Alice", "Bob"), "has") ∈ (build_graph_from_chunks ["Alice has Bob"]).edges ∧
      ("Alice" ∈ (build_graph_from_chunks ["Alice has Bob"]).nodeLabels ∧
        "Bob" ∈ (build_graph_from_chunks ["Alice has Bob"]).nodeLabels)) :=
  ⟨by decide,
    by decide,
    C7_no_dangling_edges ["Alice has Bob"] (by decide) (("Alice", "Bob"), "has") (by decide)⟩

/-- A two-node graph with a single edge Bob -> Alice, used to examine
the general-question neighbourhood listing. -/
def bobAliceGraph : Graph :=
  ((Graph.empty.addNode "Bob" [("type", "entity")]).addNode "Alice"
    [("type", "entity")]).addEdge "Bob" "Alice" "knows"

/-- C3 (counterexample): the question "Tell me about Alice" is
classified general with the non-empty mention list [Tell, Alice]; Alice
resolves, Bob is an in-neighbour of Alice, yet the answer lists no
neighbour at all: in-neighbours do not contribute, because the source
lists DiGraph neighbors, which are the successors only. -/
theorem C3_counterexample :
    classify_question "Tell me about Alice" = ("general", ["Tell", "Alice"]) ∧
    "Bob" ∈ bobAliceGraph.predecessors "Alice" ∧
    answer_question bobAliceGraph "Tell me about Alice" =
      "Here" ++ apos ++ "s what I found:\n**Alice**: Connected to " ∧
    containsSub (answer_question bobAliceGraph "Tell me about Alice") "Bob" = false := by
  exact ⟨by decide, by decide, by decide, by decide⟩

/-- C3 (amended): for every graph and resolved mention, the line built
by the general answer lists exactly the first five neighbors of the
resolved entity, which number at most five and are all out-neighbours
(successors): each listed label has an outgoing edge from the resolved
entity; in-neighbours do not contribute. -/
theorem C3_general_lists_successors :
    ∀ (g : Graph) (mention target : String) (rest : List String) (info : EntityInfo),
      find_similar_entities g mention = target :: rest →
      get_entity_information g target = some info →
      general_entity_line g mention =
        some ("**" ++ target ++ "**: Connected to " ++
          String.intercalate ", " (info.neighbors.take 5)) ∧
      (info.neighbors.take 5).length ≤ 5 ∧
      ∀ l ∈ info.neighbors.take 5, ∃ rel, ((target, l), rel) ∈ g.edges := by
  intro g mention target rest info hsim hinfo
  have hn : info.neighbors = g.successors target := by
    unfold get_entity_information at hinfo
    split at hinfo
    · have hrec := Option.some.inj hinfo
      rw [← hrec]
    · exact absurd hinfo (by simp)
  refine ⟨?_, ?_, ?_⟩
  · simp only [general_entity_line, hsim, hinfo]
  · exact List.length_take_le 5 info.neighbors
  · intro l hl
    have hl' : l ∈ g.successors target := hn ▸ List.mem_of_mem_take hl
    unfold Graph.successors at hl'
    obtain ⟨e, he, hel⟩ := List.mem_map.mp hl'
    obtain ⟨hmem, hbeq⟩ := List.mem_filter.mp he
    have h11 : e.1.1 = target := of_decide_eq_true hbeq
    refine ⟨e.2, ?_⟩
    have hkey : ((target, l), e.2) = e := by
      obtain ⟨⟨a, b⟩, c⟩ := e
      simp only at h11 hel
      rw [h11, hel]
    rw [hkey]
    exact hmem

/-- C3 witness at a resolved mention whose entity has one successor. -/
theorem C3_general_lists_successors_witness :
    (find_similar_entities bobAliceGraph "Bob" = ["Bob"]) ∧
    (get_entity_information bobAliceGraph "Bob" =
      some ⟨"Bob", [("type", "entity")], [("Alice", "knows")], [], ["Alice"]⟩) ∧
    (general_entity_line bobAliceGraph "Bob" =
      some ("**" ++ "Bob" ++ "**: Connected to " ++
        String.intercalate ", " (((["Alice"] : List String)).take 5)) ∧
      (((["Alice"] : List String)).take 5).length ≤ 5 ∧
      ∀ l ∈ ((["Alice"] : List String)).take 5,
        ∃ rel, (("Bob", l), rel) ∈ bobAliceGraph.edges) :=
  ⟨by decide, by decide,
    C3_general_lists_successors bobAliceGraph "Bob" "Bob" []
      ⟨"Bob", [("type", "entity")], [("Alice", "knows")], [], ["Alice"]⟩
      (by decide) (by decide)⟩

end KGQA
